import Mathlib

/-!
Shallow embedding of the BlueLogger leveled logging package and theorems
settling the specification claims.  The repository holds two variants of
the same design: `log.go` (namespace `v1` below) and an earlier unnamed
iteration (`part_000`, namespace `v2`).

Modelling conventions:
the Go `Level`/`LogLevel` values are `int32`; the code only compares
them, so they are modelled as `Int`.  Byte buffers are modelled as
`List Char` (everything the logger itself produces is ASCII, so bytes
and characters coincide).  `time.Now()` is ambient nondeterminism: the
header builder takes the wall-clock components of the current instant
(after the UTC/local selection done upstream of the digit rendering) as
an explicit argument.  The output sink is abstracted by returning the
bytes written; `fmt.Sprint`/`fmt.Sprintf` are external, so emit
operations take the already rendered message text.  Go loops are
translated to fuel-indexed structural recursion so that the kernel can
evaluate them; the supplied fuel is proven adequate.
-/

set_option maxHeartbeats 1000000

/-- The five severity levels as an abstract enumeration, used to state
properties uniformly over both numeric encodings. -/
inductive Lvl where
  | error
  | warn
  | info
  | debug
  | trace
deriving DecidableEq, Fintype, Repr

/-- The fixed total severity order of the spec: ERROR most severe (4)
down to TRACE least severe (0). -/
def severity : Lvl → Nat
  | .error => 4
  | .warn => 3
  | .info => 2
  | .debug => 1
  | .trace => 0

/-- Numeric encoding of the `log.go` variant (`TRACE Level = iota`):
TRACE=0, DEBUG=1, INFO=2, WARN=3, ERROR=4. -/
def Lvl.toV1 : Lvl → Int
  | .trace => 0
  | .debug => 1
  | .info => 2
  | .warn => 3
  | .error => 4

/-- Numeric encoding of the `part_000` variant
(`LevelError LogLevel = iota`): ERROR=0, WARN=1, INFO=2, DEBUG=3,
TRACE=4. -/
def Lvl.toV2 : Lvl → Int
  | .error => 0
  | .warn => 1
  | .info => 2
  | .debug => 3
  | .trace => 4

/-- Fuel-indexed decimal digit renderer, most significant digit first.
Fuel `n + 1` is always adequate because the argument shrinks under
division by 10. -/
def decRepF : Nat → Nat → List Char
  | 0, _ => []
  | fuel + 1, n =>
    if n < 10 then [Nat.digitChar n]
    else decRepF fuel (n / 10) ++ [Nat.digitChar (n % 10)]

/-- Decimal representation of a natural number, most significant digit
first: the reference notion of digit string against which `itoa` is
checked. -/
def decRep (n : Nat) : List Char := decRepF (n + 1) n

/-- Fuel-indexed translation of the `itoa` loop of both sources
(`log.go` line 264, `part_000` line 218, identical): while
`i >= 10 || wid > 1` the loop writes the digit `i % 10` at the current
right end of the slice under construction and continues with `i / 10`,
`wid - 1`; when the loop stops, the leading digit is written.  The value
is the byte slice `b[bp:]` that the Go code appends to the buffer.  Each
iteration decreases `i + wid.toNat`, so fuel `i + wid.toNat + 1` is
adequate; the fuel-exhaustion branch is unreachable from `itoa`. -/
def itoaF : Nat → Nat → Int → List Char
  | 0, i, _ => [Nat.digitChar i]
  | fuel + 1, i, wid =>
    if 10 ≤ i ∨ 1 < wid then itoaF fuel (i / 10) (wid - 1) ++ [Nat.digitChar (i % 10)]
    else [Nat.digitChar i]

/-- The characters `itoa` appends to the buffer.  The Go scratch array
has 20 bytes; `itoaB` below additionally tracks the write index and
models the bounds panic. -/
def itoa (i : Nat) (wid : Int) : List Char := itoaF (i + wid.toNat + 1) i wid

/-- Bounds-explicit embedding of the same `itoa` loop: `bp` is the write
index into the 20-byte scratch array `b`, starting at 19 and
decremented after every write; `none` models a Go index-out-of-range
panic at `b[bp]`. -/
def itoaBF : Nat → Nat → Int → Int → Option (List Char)
  | 0, _, _, _ => none
  | fuel + 1, i, wid, bp =>
    if 10 ≤ i ∨ 1 < wid then
      if bp < 0 ∨ 20 ≤ bp then none
      else (itoaBF fuel (i / 10) (wid - 1) (bp - 1)).map (fun l => l ++ [Nat.digitChar (i % 10)])
    else
      if bp < 0 ∨ 20 ≤ bp then none
      else some [Nat.digitChar i]

/-- `itoa` with the scratch-array bounds tracked, starting at index 19
as in the source. -/
def itoaB (i : Nat) (wid : Int) : Option (List Char) := itoaBF (i + wid.toNat + 1) i wid 19

namespace acolor

/-- Modelled from the spec: the external `acolor` collaborator
(the spec excludes it from scope and describes it as mapping a symbolic
color name to its ANSI SGR escape sequence and back to a reset
sequence, with sequences of the shape `ESC [ codes m`).  `Apply` joins
the numeric SGR codes with `;` between `ESC [` and `m`. -/
def Apply (codes : List Nat) : List Char :=
  '\x1b' :: '[' :: (List.intercalate [';'] (codes.map decRep) ++ ['m'])

/-- Modelled from the spec: the SGR reset sequence `ESC [0m`. -/
def Clear : List Char := Apply [0]

/-- SGR code of bold text. -/
def Bold : Nat := 1

/-- SGR code of red foreground. -/
def Red : Nat := 31

/-- SGR code of green foreground. -/
def Green : Nat := 32

/-- SGR code of yellow foreground. -/
def Yellow : Nat := 33

/-- SGR code of cyan foreground. -/
def Cyan : Nat := 36

/-- SGR code of white foreground. -/
def White : Nat := 37

/-- SGR code of bright black foreground. -/
def BlackHi : Nat := 90

end acolor

/-- The escape byte that opens every ANSI sequence. -/
def escCh : Char := '\x1b'

/-- The `Logger` struct common to both variants (`log.go` line 84,
`part_000` line 51).  The sink and the mutex are not part of the
modelled state: the sink is abstracted by returning the bytes written,
and the mutex only serializes calls.  `level` is the `int32` threshold,
`buf` the reusable scratch buffer. -/
structure Logger where
  Color : Bool
  UTC : Bool
  Head : Bool
  HeadLevel : Bool
  HeadDate : Bool
  HeadTime : Bool
  HeadMC : Bool
  level : Int
  buf : List Char
deriving DecidableEq, Repr

/-- `New` of both variants: every display switch on except
microseconds; the threshold argument is stored unvalidated. -/
def New (level : Int) : Logger :=
  { Color := true, UTC := true, Head := true, HeadLevel := true,
    HeadDate := true, HeadTime := true, HeadMC := false,
    level := level, buf := [] }

/-- Wall-clock components of the instant observed by `time.Now()`
(after the `UTC` selection); the header prints `nsec / 1000`
microseconds. -/
structure Timestamp where
  year : Nat
  month : Nat
  day : Nat
  hour : Nat
  minute : Nat
  sec : Nat
  nsec : Nat
deriving DecidableEq, Repr

/-- The date/time block inlined in `writeHeader` of both variants
(`log.go` lines 185-215, `part_000` lines 135-165, identical): date
`DD.MM.YYYY ` when `HeadDate`, then time `HH:MM:SS[.NNNNNN] ` when
`HeadTime`. -/
def headerDateTime (l : Logger) (ts : Timestamp) : List Char :=
  (if l.HeadDate then
      itoa ts.day 2 ++ ['.'] ++ itoa ts.month 2 ++ ['.'] ++ itoa ts.year 4 ++ [' ']
    else []) ++
  (if l.HeadTime then
      itoa ts.hour 2 ++ [':'] ++ itoa ts.minute 2 ++ [':'] ++ itoa ts.sec 2 ++
        (if l.HeadMC then ['.'] ++ itoa (ts.nsec / 1000) 6 else []) ++ [' ']
    else [])

/-- Result of a fatal logging call: final state, bytes written, and
whether `os.Exit(1)` was reached (when `exited` is true the Go call
never returns to the caller). -/
structure EmitExit where
  state : Logger
  out : List Char
  exited : Bool
deriving DecidableEq, Repr

namespace v1

/-- `log.go` level constant TRACE. -/
def TRACE : Int := 0

/-- `log.go` level constant DEBUG. -/
def DEBUG : Int := 1

/-- `log.go` level constant INFO. -/
def INFO : Int := 2

/-- `log.go` level constant WARN. -/
def WARN : Int := 3

/-- `log.go` level constant ERROR. -/
def ERROR : Int := 4

/-- `Logger.getHeaderLevel` (`log.go` line 233): 8-character tag,
bracketed in a per-level bold color escape and a reset when color is
on; any level other than the four named ones falls to the ERROR tag. -/
def getHeaderLevel (l : Logger) (level : Int) : List Char :=
  if l.Color then
    if level = INFO then acolor.Apply [acolor.Bold, acolor.Green] ++ "[INFO]  ".data ++ acolor.Clear
    else if level = WARN then acolor.Apply [acolor.Bold, acolor.Yellow] ++ "[WARN]  ".data ++ acolor.Clear
    else if level = TRACE then acolor.Apply [acolor.Bold, acolor.White] ++ "[TRACE] ".data ++ acolor.Clear
    else if level = DEBUG then acolor.Apply [acolor.Bold, acolor.Cyan] ++ "[DEBUG] ".data ++ acolor.Clear
    else acolor.Apply [acolor.Bold, acolor.Red] ++ "[ERROR] ".data ++ acolor.Clear
  else
    if level = INFO then "[INFO]  ".data
    else if level = WARN then "[WARN]  ".data
    else if level = TRACE then "[TRACE] ".data
    else if level = DEBUG then "[DEBUG] ".data
    else "[ERROR] ".data

/-- The bytes `writeHeader` has produced just before its terminator step
(`log.go` lines 170-215): level tag when `HeadLevel`, header color
escape when `Color` (red for ERROR, bright black otherwise), then the
date/time block. -/
def headerPre (l : Logger) (level : Int) (ts : Timestamp) : List Char :=
  (if l.HeadLevel then getHeaderLevel l level else []) ++
  (if l.Color then
      (if level = ERROR then acolor.Apply [acolor.Red] else acolor.Apply [acolor.BlackHi])
    else []) ++
  (if l.HeadDate || l.HeadTime then headerDateTime l ts else [])

/-- `Logger.writeHeader` (`log.go` line 168), as the bytes appended to
an initially empty buffer (its only call site resets the buffer first):
if the buffer is empty, return; otherwise drop the last byte of the
buffer and append `": "`, plus the reset sequence when color is on. -/
def writeHeader (l : Logger) (level : Int) (ts : Timestamp) : List Char :=
  let pre := headerPre l level ts
  if pre.length = 0 then pre
  else pre.dropLast ++ ([':', ' '] ++ (if l.Color then acolor.Clear else []))

/-- `Logger.write` (`log.go` line 279): reset the buffer, append the
header when `Head`, append the body (red-bracketed when color is on and
the level is ERROR) and a newline, and write the buffer to the sink.
Returns the updated logger and the bytes written. -/
def write (l : Logger) (level : Int) (ts : Timestamp) (msg : List Char) :
    Logger × List Char :=
  let buf1 := if l.Head then writeHeader l level ts else []
  let buf2 :=
    if l.Color ∧ level = ERROR then
      buf1 ++ (acolor.Apply [acolor.Red] ++ msg ++ acolor.Clear ++ ['\n'])
    else buf1 ++ (msg ++ ['\n'])
  ({ l with buf := buf2 }, buf2)

/-- `Logger.IsLevel` (`log.go` line 343): `level >= l.level`. -/
def IsLevel (l : Logger) (level : Int) : Bool := l.level ≤ level

/-- `Logger.SetLevel` (`log.go` line 315): stores the value
unvalidated. -/
def SetLevel (l : Logger) (level : Int) : Logger := { l with level := level }

/-- `Logger.Error` (`log.go` line 379): returns silently when
`ERROR < l.level`; otherwise writes and calls `os.Exit(1)`. -/
def Error (l : Logger) (ts : Timestamp) (msg : List Char) : EmitExit :=
  if ERROR < l.level then ⟨l, [], false⟩
  else
    let r := write l ERROR ts msg
    ⟨r.1, r.2, true⟩

/-- `Logger.Warn` (`log.go` line 390): no-op when `WARN < l.level`. -/
def Warn (l : Logger) (ts : Timestamp) (msg : List Char) : Logger × List Char :=
  if WARN < l.level then (l, []) else write l WARN ts msg

/-- `Logger.Info` (`log.go` line 400): no-op when `INFO < l.level`. -/
def Info (l : Logger) (ts : Timestamp) (msg : List Char) : Logger × List Char :=
  if INFO < l.level then (l, []) else write l INFO ts msg

/-- `Logger.Debug` (`log.go` line 410): no-op when `DEBUG < l.level`. -/
def Debug (l : Logger) (ts : Timestamp) (msg : List Char) : Logger × List Char :=
  if DEBUG < l.level then (l, []) else write l DEBUG ts msg

/-- `Logger.Trace` (`log.go` line 420): no-op when `TRACE < l.level`. -/
def Trace (l : Logger) (ts : Timestamp) (msg : List Char) : Logger × List Char :=
  if TRACE < l.level then (l, []) else write l TRACE ts msg

end v1

namespace v2

/-- `part_000` level constant LevelError. -/
def LevelError : Int := 0

/-- `part_000` level constant LevelWarn. -/
def LevelWarn : Int := 1

/-- `part_000` level constant LevelInfo. -/
def LevelInfo : Int := 2

/-- `part_000` level constant LevelDebug. -/
def LevelDebug : Int := 3

/-- `part_000` level constant LevelTrace. -/
def LevelTrace : Int := 4

/-- `Logger.getHeaderLevel` (`part_000` line 183): as in `log.go` but
with an explicit ERROR case and a `[]` tag for out-of-range levels. -/
def getHeaderLevel (l : Logger) (level : Int) : List Char :=
  if l.Color then
    if level = LevelInfo then acolor.Apply [acolor.Bold, acolor.Green] ++ "[INFO]  ".data ++ acolor.Clear
    else if level = LevelWarn then acolor.Apply [acolor.Bold, acolor.Yellow] ++ "[WARN]  ".data ++ acolor.Clear
    else if level = LevelTrace then acolor.Apply [acolor.Bold, acolor.White] ++ "[TRACE] ".data ++ acolor.Clear
    else if level = LevelDebug then acolor.Apply [acolor.Bold, acolor.Cyan] ++ "[DEBUG] ".data ++ acolor.Clear
    else if level = LevelError then acolor.Apply [acolor.Bold, acolor.Red] ++ "[ERROR] ".data ++ acolor.Clear
    else acolor.Apply [acolor.Bold, acolor.White] ++ "[]      ".data ++ acolor.Clear
  else
    if level = LevelInfo then "[INFO]  ".data
    else if level = LevelWarn then "[WARN]  ".data
    else if level = LevelTrace then "[TRACE] ".data
    else if level = LevelDebug then "[DEBUG] ".data
    else if level = LevelError then "[ERROR] ".data
    else "[]      ".data

/-- The bytes `writeHeader` has produced just before its terminator step
(`part_000` lines 120-165). -/
def headerPre (l : Logger) (level : Int) (ts : Timestamp) : List Char :=
  (if l.HeadLevel then getHeaderLevel l level else []) ++
  (if l.Color then
      (if level = LevelError then acolor.Apply [acolor.Red] else acolor.Apply [acolor.BlackHi])
    else []) ++
  (if l.HeadDate || l.HeadTime then headerDateTime l ts else [])

/-- `Logger.writeHeader` (`part_000` line 118); same terminator step as
in `log.go`. -/
def writeHeader (l : Logger) (level : Int) (ts : Timestamp) : List Char :=
  let pre := headerPre l level ts
  if pre.length = 0 then pre
  else pre.dropLast ++ ([':', ' '] ++ (if l.Color then acolor.Clear else []))

/-- `Logger.write` (`part_000` line 233): the message text is the
rendered result of `fmt.Sprint(v...)`. -/
def write (l : Logger) (level : Int) (ts : Timestamp) (msg : List Char) :
    Logger × List Char :=
  let buf1 := if l.Head then writeHeader l level ts else []
  let buf2 :=
    if l.Color ∧ level = LevelError then
      buf1 ++ (acolor.Apply [acolor.Red] ++ msg ++ acolor.Clear ++ ['\n'])
    else buf1 ++ (msg ++ ['\n'])
  ({ l with buf := buf2 }, buf2)

/-- `Logger.writef` (`part_000` line 257): identical to `write` except
that the message text is the rendered result of
`fmt.Sprintf(format, v...)`, which this embedding receives already
rendered. -/
def writef (l : Logger) (level : Int) (ts : Timestamp) (msg : List Char) :
    Logger × List Char :=
  let buf1 := if l.Head then writeHeader l level ts else []
  let buf2 :=
    if l.Color ∧ level = LevelError then
      buf1 ++ (acolor.Apply [acolor.Red] ++ msg ++ acolor.Clear ++ ['\n'])
    else buf1 ++ (msg ++ ['\n'])
  ({ l with buf := buf2 }, buf2)

/-- `Logger.IsLevel` (`part_000` line 324): `l.level >= level`. -/
def IsLevel (l : Logger) (level : Int) : Bool := level ≤ l.level

/-- `Logger.SetLevel` (`part_000` line 291): clamps to
`[LevelError, LevelTrace]`. -/
def SetLevel (l : Logger) (level : Int) : Logger :=
  if level < LevelError then { l with level := LevelError }
  else if level > LevelTrace then { l with level := LevelTrace }
  else { l with level := level }

/-- `Logger.Error` (`part_000` line 360): always writes, then calls
`os.Exit(1)`. -/
def Error (l : Logger) (ts : Timestamp) (msg : List Char) : EmitExit :=
  let r := write l LevelError ts msg
  ⟨r.1, r.2, true⟩

/-- `Logger.Errorf` (`part_000` line 407): always writes with
formatting, then calls `os.Exit(1)`. -/
def Errorf (l : Logger) (ts : Timestamp) (msg : List Char) : EmitExit :=
  let r := writef l LevelError ts msg
  ⟨r.1, r.2, true⟩

/-- `Logger.Warn` (`part_000` line 367): no-op when
`l.level < LevelWarn`. -/
def Warn (l : Logger) (ts : Timestamp) (msg : List Char) : Logger × List Char :=
  if l.level < LevelWarn then (l, []) else write l LevelWarn ts msg

/-- `Logger.Info` (`part_000` line 377): no-op when
`l.level < LevelInfo`. -/
def Info (l : Logger) (ts : Timestamp) (msg : List Char) : Logger × List Char :=
  if l.level < LevelInfo then (l, []) else write l LevelInfo ts msg

/-- `Logger.Debug` (`part_000` line 387): no-op when
`l.level < LevelDebug`. -/
def Debug (l : Logger) (ts : Timestamp) (msg : List Char) : Logger × List Char :=
  if l.level < LevelDebug then (l, []) else write l LevelDebug ts msg

/-- `Logger.Trace` (`part_000` line 397): no-op when
`l.level < LevelTrace`. -/
def Trace (l : Logger) (ts : Timestamp) (msg : List Char) : Logger × List Char :=
  if l.level < LevelTrace then (l, []) else write l LevelTrace ts msg

/-- `Logger.Warnf` (`part_000` line 414): no-op when
`l.level < LevelWarn`. -/
def Warnf (l : Logger) (ts : Timestamp) (msg : List Char) : Logger × List Char :=
  if l.level < LevelWarn then (l, []) else writef l LevelWarn ts msg

/-- `Logger.Infof` (`part_000` line 424): no-op when
`l.level < LevelInfo`. -/
def Infof (l : Logger) (ts : Timestamp) (msg : List Char) : Logger × List Char :=
  if l.level < LevelInfo then (l, []) else writef l LevelInfo ts msg

/-- `Logger.Debugf` (`part_000` line 434): no-op when
`l.level < LevelDebug`. -/
def Debugf (l : Logger) (ts : Timestamp) (msg : List Char) : Logger × List Char :=
  if l.level < LevelDebug then (l, []) else writef l LevelDebug ts msg

/-- `Logger.Tracef` (`part_000` line 444): no-op when
`l.level < LevelTrace`. -/
def Tracef (l : Logger) (ts : Timestamp) (msg : List Char) : Logger × List Char :=
  if l.level < LevelTrace then (l, []) else writef l LevelTrace ts msg

end v2

/-- Zero-padding to a minimum width, the shape the spec prescribes for
header numbers: left padding with zeros, no truncation. -/
def pad (w n : Nat) : List Char := List.replicate (w - (decRep n).length) '0' ++ decRep n

/-- The colored level tag the spec prescribes: per-level bold color
escape (ERROR red, WARN yellow, INFO green, DEBUG cyan, TRACE white),
8-character tag, reset. -/
def tagRun : Lvl → List Char
  | .error => acolor.Apply [acolor.Bold, acolor.Red] ++ "[ERROR] ".data ++ acolor.Clear
  | .warn => acolor.Apply [acolor.Bold, acolor.Yellow] ++ "[WARN]  ".data ++ acolor.Clear
  | .info => acolor.Apply [acolor.Bold, acolor.Green] ++ "[INFO]  ".data ++ acolor.Clear
  | .debug => acolor.Apply [acolor.Bold, acolor.Cyan] ++ "[DEBUG] ".data ++ acolor.Clear
  | .trace => acolor.Apply [acolor.Bold, acolor.White] ++ "[TRACE] ".data ++ acolor.Clear

/-- A fixed instant used by witnesses and counterexamples:
2024-03-05T07:08:09Z. -/
def ts0 : Timestamp := ⟨2024, 3, 5, 7, 8, 9, 0⟩

/-- A fixed rendered message used by witnesses and counterexamples. -/
def msg0 : List Char := "boom".data

/-- Configuration with the level tag as the only enabled header part,
color on. -/
def cfgTagOnly : Logger :=
  { Color := true, UTC := true, Head := true, HeadLevel := true,
    HeadDate := false, HeadTime := false, HeadMC := false, level := 0, buf := [] }

/-- Configuration with every header sub-switch off but color on. -/
def cfgColorOnly : Logger :=
  { Color := true, UTC := true, Head := true, HeadLevel := false,
    HeadDate := false, HeadTime := false, HeadMC := false, level := 0, buf := [] }

/-- Configuration showing only date and time, with color and the level
tag off. -/
def cfgDT : Logger :=
  { Color := false, UTC := true, Head := true, HeadLevel := false,
    HeadDate := true, HeadTime := true, HeadMC := false, level := 0, buf := [] }

/-! ### Helper lemmas about the numeric renderers -/

theorem itoaF_adequate (f : Nat) : ∀ (g : Nat) (i : Nat) (wid : Int),
    i + wid.toNat < f → i + wid.toNat < g → itoaF f i wid = itoaF g i wid := by
  induction f with
  | zero => intro g i wid h _; omega
  | succ f ih =>
    intro g i wid hf hg
    cases g with
    | zero => omega
    | succ g =>
      simp only [itoaF]
      by_cases hc : 10 ≤ i ∨ 1 < wid
      · rw [if_pos hc, if_pos hc,
          ih g (i / 10) (wid - 1) (by rcases hc with hc | hc <;> omega)
            (by rcases hc with hc | hc <;> omega)]
      · rw [if_neg hc, if_neg hc]

theorem itoa_step (i : Nat) (wid : Int) (h : 10 ≤ i ∨ 1 < wid) :
    itoa i wid = itoa (i / 10) (wid - 1) ++ [Nat.digitChar (i % 10)] := by
  show itoaF (i + wid.toNat + 1) i wid = itoaF (i / 10 + (wid - 1).toNat + 1) (i / 10) (wid - 1) ++ _
  conv_lhs => rw [itoaF]
  rw [if_pos h,
    itoaF_adequate (i + wid.toNat) (i / 10 + (wid - 1).toNat + 1) (i / 10) (wid - 1)
      (by rcases h with h | h <;> omega) (by omega)]

theorem itoa_base (i : Nat) (wid : Int) (h1 : i < 10) (h2 : wid ≤ 1) :
    itoa i wid = [Nat.digitChar i] := by
  show itoaF (i + wid.toNat + 1) i wid = _
  simp only [itoaF]
  rw [if_neg (by omega)]

theorem decRepF_adequate (f : Nat) : ∀ (g n : Nat), n < f → n < g →
    decRepF f n = decRepF g n := by
  induction f with
  | zero => intro g n h _; omega
  | succ f ih =>
    intro g n hf hg
    cases g with
    | zero => omega
    | succ g =>
      simp only [decRepF]
      by_cases hc : n < 10
      · rw [if_pos hc, if_pos hc]
      · rw [if_neg hc, if_neg hc, ih g (n / 10) (by omega) (by omega)]

theorem decRep_lt (n : Nat) (h : n < 10) : decRep n = [Nat.digitChar n] := by
  show decRepF (n + 1) n = _
  simp only [decRepF]
  rw [if_pos h]

theorem decRep_ge (n : Nat) (h : 10 ≤ n) :
    decRep n = decRep (n / 10) ++ [Nat.digitChar (n % 10)] := by
  show decRepF (n + 1) n = decRepF (n / 10 + 1) (n / 10) ++ _
  conv_lhs => rw [decRepF]
  rw [if_neg (by omega), decRepF_adequate n (n / 10 + 1) (n / 10) (by omega) (by omega)]

theorem decRep_concat (n : Nat) : ∃ l c, decRep n = l ++ [c] := by
  by_cases h : n < 10
  · exact ⟨[], Nat.digitChar n, decRep_lt n h⟩
  · exact ⟨decRep (n / 10), Nat.digitChar (n % 10), decRep_ge n (by omega)⟩

theorem decRep_length_pos (n : Nat) : 0 < (decRep n).length := by
  obtain ⟨l, c, h⟩ := decRep_concat n
  rw [h]
  simp

theorem itoa_pad_aux (m : Nat) : ∀ (i : Nat) (wid : Int), i + wid.toNat < m →
    itoa i wid = List.replicate (wid.toNat - (decRep i).length) '0' ++ decRep i := by
  induction m with
  | zero => intro i wid h; omega
  | succ m ih =>
    intro i wid h
    by_cases h1 : 10 ≤ i
    · rw [itoa_step i wid (Or.inl h1), decRep_ge i h1,
        ih (i / 10) (wid - 1) (by omega)]
      simp only [List.length_append, List.length_cons, List.length_nil, List.append_assoc]
      have hc : (wid - 1).toNat - (decRep (i / 10)).length
          = wid.toNat - ((decRep (i / 10)).length + (0 + 1)) := by omega
      rw [hc]
    · by_cases h2 : 1 < wid
      · rw [itoa_step i wid (Or.inr h2), Nat.div_eq_of_lt (by omega),
          Nat.mod_eq_of_lt (by omega), ih 0 (wid - 1) (by omega),
          decRep_lt 0 (by omega), decRep_lt i (by omega)]
        have hd : Nat.digitChar 0 = '0' := by decide
        rw [hd]
        have hn : wid.toNat - (List.length [Nat.digitChar i])
            = ((wid - 1).toNat - List.length ['0'] ) + 1 := by
          simp only [List.length_cons, List.length_nil]
          omega
        rw [hn, List.replicate_succ', List.append_assoc]
      · rw [itoa_base i wid (by omega) (by omega), decRep_lt i (by omega)]
        have hn : wid.toNat - (List.length [Nat.digitChar i]) = 0 := by
          simp only [List.length_cons, List.length_nil]
          omega
        rw [hn]
        simp

theorem itoa_eq_pad (i : Nat) (wid : Int) :
    itoa i wid = List.replicate (wid.toNat - (decRep i).length) '0' ++ decRep i :=
  itoa_pad_aux (i + wid.toNat + 1) i wid (by omega)

theorem itoa_length (i : Nat) (wid : Int) :
    (itoa i wid).length = max wid.toNat (decRep i).length := by
  rw [itoa_eq_pad]
  simp only [List.length_append, List.length_replicate]
  omega

theorem itoa_length_pos (i : Nat) (wid : Int) : 0 < (itoa i wid).length := by
  rw [itoa_length]
  have := decRep_length_pos i
  omega

theorem itoa_ne_nil (i : Nat) (wid : Int) : itoa i wid ≠ [] := by
  rw [← List.length_pos]
  exact itoa_length_pos i wid

theorem digitChar_ne_esc (n : Nat) (h : n < 10) : Nat.digitChar n ≠ escCh := by
  interval_cases n <;> decide

theorem esc_decRep_aux (m : Nat) : ∀ n, n < m → escCh ∉ decRep n := by
  induction m with
  | zero => intro n h; omega
  | succ m ih =>
    intro n h
    by_cases h1 : n < 10
    · rw [decRep_lt n h1]
      intro hmem
      simp only [List.mem_singleton] at hmem
      exact digitChar_ne_esc n h1 hmem.symm
    · rw [decRep_ge n (by omega)]
      intro hmem
      rcases List.mem_append.1 hmem with hmem | hmem
      · exact ih (n / 10) (by omega) hmem
      · simp only [List.mem_singleton] at hmem
        exact digitChar_ne_esc (n % 10) (Nat.mod_lt n (by omega)) hmem.symm

theorem esc_not_mem_decRep (n : Nat) : escCh ∉ decRep n :=
  esc_decRep_aux (n + 1) n (by omega)

theorem esc_not_mem_itoa (i : Nat) (wid : Int) : escCh ∉ itoa i wid := by
  rw [itoa_eq_pad]
  intro hmem
  rcases List.mem_append.1 hmem with hmem | hmem
  · have := List.eq_of_mem_replicate hmem
    exact absurd this (by decide)
  · exact esc_not_mem_decRep i hmem

theorem decRep_length_le (k : Nat) : ∀ i, i < 10 ^ (k + 1) → (decRep i).length ≤ k + 1 := by
  induction k with
  | zero =>
    intro i h
    rw [decRep_lt i (by omega)]
    simp
  | succ k ih =>
    intro i h
    by_cases h1 : i < 10
    · rw [decRep_lt i h1]
      simp
    · rw [decRep_ge i (by omega)]
      simp only [List.length_append, List.length_cons, List.length_nil]
      have hdiv : i / 10 < 10 ^ (k + 1) := by
        rw [Nat.div_lt_iff_lt_mul (by omega)]
        calc i < 10 ^ (k + 1 + 1) := h
        _ = 10 ^ (k + 1) * 10 := by ring
      have := ih (i / 10) hdiv
      omega

/-! ### Helper lemmas about header components -/

theorem Apply_ne_nil (codes : List Nat) : acolor.Apply codes ≠ [] := by
  simp [acolor.Apply]

theorem getLast?_append_concat {α : Type} (l₁ l₂ : List α) (a : α) :
    (l₁ ++ (l₂ ++ [a])).getLast? = some a := by
  rw [← List.append_assoc, List.getLast?_concat]

theorem v1_getHeaderLevel_ne_nil (l : Logger) (level : Int) :
    v1.getHeaderLevel l level ≠ [] := by
  unfold v1.getHeaderLevel
  split_ifs <;> decide

theorem v2_getHeaderLevel_ne_nil (l : Logger) (level : Int) :
    v2.getHeaderLevel l level ≠ [] := by
  unfold v2.getHeaderLevel
  split_ifs <;> decide

theorem headerDateTime_ne_nil (l : Logger) (ts : Timestamp)
    (h : (l.HeadDate || l.HeadTime) = true) : headerDateTime l ts ≠ [] := by
  unfold headerDateTime
  intro he
  rcases List.append_eq_nil.1 he with ⟨h1, h2⟩
  rcases Bool.or_eq_true_iff.mp h with hd | ht
  · rw [if_pos hd] at h1
    simp at h1
  · rw [if_pos ht] at h2
    simp at h2

theorem headerDateTime_getLast (l : Logger) (ts : Timestamp)
    (h : (l.HeadDate || l.HeadTime) = true) :
    (headerDateTime l ts).getLast? = some ' ' := by
  unfold headerDateTime
  rcases Bool.eq_false_or_eq_true l.HeadTime with ht | ht
  · rw [if_pos ht, List.getLast?_append_of_ne_nil _ (by simp)]
    exact List.getLast?_concat _
  · have hd : l.HeadDate = true := by
      rcases Bool.or_eq_true_iff.mp h with h' | h'
      · exact h'
      · rw [ht] at h'
        exact absurd h' (by simp)
    rw [if_pos hd, if_neg (by simp [ht]), List.append_nil]
    exact List.getLast?_concat _

theorem esc_not_mem_dt (l : Logger) (ts : Timestamp) : escCh ∉ headerDateTime l ts := by
  unfold headerDateTime
  intro h
  rcases List.mem_append.1 h with h | h
  · split at h
    · simp only [List.mem_append, List.mem_singleton] at h
      rcases h with ((((h | h) | h) | h) | h) | h
      · exact esc_not_mem_itoa _ _ h
      · exact absurd h (by decide)
      · exact esc_not_mem_itoa _ _ h
      · exact absurd h (by decide)
      · exact esc_not_mem_itoa _ _ h
      · exact absurd h (by decide)
    · simp at h
  · split at h
    · simp only [List.mem_append, List.mem_singleton] at h
      rcases h with (((((h | h) | h) | h) | h) | h) | h
      · exact esc_not_mem_itoa _ _ h
      · exact absurd h (by decide)
      · exact esc_not_mem_itoa _ _ h
      · exact absurd h (by decide)
      · exact esc_not_mem_itoa _ _ h
      · split at h
        · rcases List.mem_append.1 h with h | h
          · exact absurd h (by decide)
          · exact esc_not_mem_itoa _ _ h
        · simp at h
      · exact absurd h (by decide)
    · simp at h

theorem esc_not_mem_tag_v1 (l : Logger) (level : Int) (hc : l.Color = false) :
    escCh ∉ v1.getHeaderLevel l level := by
  unfold v1.getHeaderLevel
  rw [if_neg (by simp [hc])]
  split_ifs <;> decide

theorem esc_not_mem_tag_v2 (l : Logger) (level : Int) (hc : l.Color = false) :
    escCh ∉ v2.getHeaderLevel l level := by
  unfold v2.getHeaderLevel
  rw [if_neg (by simp [hc])]
  split_ifs <;> decide

theorem esc_not_mem_pre_v1 (l : Logger) (level : Int) (ts : Timestamp)
    (hc : l.Color = false) : escCh ∉ v1.headerPre l level ts := by
  unfold v1.headerPre
  intro h
  rcases List.mem_append.1 h with h | h
  · rcases List.mem_append.1 h with h | h
    · split at h
      · exact esc_not_mem_tag_v1 l level hc h
      · simp at h
    · rw [if_neg (by simp [hc])] at h
      simp at h
  · split at h
    · exact esc_not_mem_dt l ts h
    · simp at h

theorem esc_not_mem_writeHeader_v1 (l : Logger) (level : Int) (ts : Timestamp)
    (hc : l.Color = false) : escCh ∉ v1.writeHeader l level ts := by
  intro h
  simp only [v1.writeHeader] at h
  split at h
  · exact esc_not_mem_pre_v1 l level ts hc h
  · rcases List.mem_append.1 h with h | h
    · exact esc_not_mem_pre_v1 l level ts hc (List.dropLast_subset _ h)
    · rcases List.mem_append.1 h with h | h
      · exact absurd h (by decide)
      · rw [if_neg (by simp [hc])] at h
        simp at h

theorem tagRun_ne_nil (L : Lvl) : tagRun L ≠ [] := by
  cases L <;> simp [tagRun, acolor.Apply]

/-- The two variants share the shape of the pre-terminator header
bytes; this lemma characterizes when that shape is empty. -/
theorem pre_shape_eq_nil_iff (l : Logger) (tag ce : List Char) (ts : Timestamp)
    (htag : tag ≠ []) (hce : ce ≠ []) :
    ((if l.HeadLevel then tag else []) ++ (if l.Color then ce else []) ++
        (if l.HeadDate || l.HeadTime then headerDateTime l ts else []) = []) ↔
      (l.Color = false ∧ l.HeadLevel = false ∧ l.HeadDate = false ∧ l.HeadTime = false) := by
  constructor
  · intro h
    rcases List.append_eq_nil.1 h with ⟨h12, h3⟩
    rcases List.append_eq_nil.1 h12 with ⟨h1, h2⟩
    refine ⟨?_, ?_, ?_, ?_⟩
    · cases hc : l.Color
      · rfl
      · rw [if_pos hc] at h2
        exact absurd h2 hce
    · cases hl : l.HeadLevel
      · rfl
      · rw [if_pos hl] at h1
        exact absurd h1 htag
    · cases hd : l.HeadDate
      · rfl
      · rw [if_pos (by simp [hd])] at h3
        exact absurd h3 (headerDateTime_ne_nil l ts (by simp [hd]))
    · cases htm : l.HeadTime
      · rfl
      · rw [if_pos (by simp [htm])] at h3
        exact absurd h3 (headerDateTime_ne_nil l ts (by simp [htm]))
  · rintro ⟨hc, hl, hd, htm⟩
    simp [hc, hl, hd, htm]

/-- In the shared shape of the pre-terminator header bytes, the last
byte is a space whenever the date or the time is displayed. -/
theorem pre_shape_getLast (l : Logger) (tag ce : List Char) (ts : Timestamp)
    (h : l.HeadDate = true ∨ l.HeadTime = true) :
    ((if l.HeadLevel then tag else []) ++ (if l.Color then ce else []) ++
        (if l.HeadDate || l.HeadTime then headerDateTime l ts else [])).getLast? = some ' ' := by
  have hor : (l.HeadDate || l.HeadTime) = true := by
    rcases h with h | h <;> simp [h]
  rw [if_pos hor,
    List.getLast?_append_of_ne_nil _ (headerDateTime_ne_nil l ts hor)]
  exact headerDateTime_getLast l ts hor

theorem itoaBF_eq (f : Nat) : ∀ (i : Nat) (wid bp : Int),
    i + wid.toNat < f → 0 ≤ bp → bp < 20 → (itoa i wid).length ≤ bp.toNat + 1 →
    itoaBF f i wid bp = some (itoa i wid) := by
  induction f with
  | zero => intro i wid bp h _ _ _; omega
  | succ f ih =>
    intro i wid bp hf h0 h20 hlen
    simp only [itoaBF]
    by_cases hc : 10 ≤ i ∨ 1 < wid
    · rw [if_pos hc, if_neg (by omega)]
      have hstep := itoa_step i wid hc
      have hl : (itoa (i / 10) (wid - 1)).length + 1 = (itoa i wid).length := by
        rw [hstep]
        simp
      have hpos := itoa_length_pos (i / 10) (wid - 1)
      rw [ih (i / 10) (wid - 1) (bp - 1) (by rcases hc with hc | hc <;> omega)
        (by omega) (by omega) (by omega)]
      simp only [Option.map_some']
      rw [← hstep]
    · rw [if_neg hc, if_neg (by omega)]
      push_neg at hc
      rw [itoa_base i wid (by omega) (by omega)]

/-! ### Claim theorems -/

/-- C1: for every severity level L and every threshold T in the valid
range (ERROR through TRACE), the gate IsLevel of a logger whose
threshold is T accepts L exactly when L is at least as severe as T
under the fixed total order ERROR > WARN > INFO > DEBUG > TRACE, in
both source variants despite their opposite numeric enum orderings. -/
theorem c1_gate_matches_severity_order : ∀ L T : Lvl,
    (v1.IsLevel { New 0 with level := Lvl.toV1 T } (Lvl.toV1 L) = true ↔
      severity T ≤ severity L) ∧
    (v2.IsLevel { New 0 with level := Lvl.toV2 T } (Lvl.toV2 L) = true ↔
      severity T ≤ severity L) := by
  decide

/-- C7: itoa appends the decimal representation of its argument
left-padded with zeros to the minimum width and never truncates; in
particular 7 at width 2 renders as 07 and 12345 at width 4 renders as
12345. -/
theorem c7_itoa_pads_no_truncation :
    (∀ (i w : Nat),
      itoa i (w : Int) = List.replicate (w - (decRep i).length) '0' ++ decRep i) ∧
    itoa 7 2 = "07".data ∧ itoa 12345 4 = "12345".data := by
  refine ⟨fun i w => ?_, by decide, by decide⟩
  rw [itoa_eq_pad]
  simp

/-- C10: for widths at most 20 and values of at most 20 decimal digits,
itoa accesses only in-bounds indices of its 20-byte scratch array; the
bound is a real precondition, since width 21 drives the write index
below zero. -/
theorem c10_itoa_scratch_bounds :
    (∀ (i w : Nat), i < 10 ^ 20 → w ≤ 20 → (itoaB i (w : Int)).isSome = true) ∧
    itoaB 0 21 = none := by
  constructor
  · intro i w hi hw
    have hL : (decRep i).length ≤ 20 := decRep_length_le 19 i hi
    have hco : ((w : Int)).toNat = w := by simp
    have hlen : (itoa i (w : Int)).length ≤ 20 := by
      rw [itoa_length, hco]
      omega
    unfold itoaB
    rw [itoaBF_eq (i + ((w : Int)).toNat + 1) i (w : Int) 19 (by omega) (by norm_num)
      (by norm_num) (by rw [show ((19 : Int)).toNat = 19 from rfl]; omega)]
    rfl
  · decide

/-- Witness for C10 at value 123, width 6. -/
theorem c10_itoa_scratch_bounds_witness :
    (123 : Nat) < 10 ^ 20 ∧ (6 : Nat) ≤ 20 ∧ (itoaB 123 ((6 : Nat) : Int)).isSome = true :=
  ⟨by norm_num, by norm_num, c10_itoa_scratch_bounds.1 123 6 (by norm_num) (by norm_num)⟩

/-- C9: the formatted write path of the part_000 variant produces
exactly the same final state and emitted bytes as the plain write path
invoked with the same pre-rendered message, at every level; the gated
formatted convenience operations likewise coincide with their plain
counterparts. -/
theorem c9_writef_equals_write :
    ∀ (l : Logger) (level : Int) (ts : Timestamp) (msg : List Char),
    v2.writef l level ts msg = v2.write l level ts msg ∧
    v2.Warnf l ts msg = v2.Warn l ts msg ∧
    v2.Infof l ts msg = v2.Info l ts msg ∧
    v2.Debugf l ts msg = v2.Debug l ts msg ∧
    v2.Tracef l ts msg = v2.Trace l ts msg ∧
    v2.Errorf l ts msg = v2.Error l ts msg :=
  fun _ _ _ _ => ⟨rfl, rfl, rfl, rfl, rfl, rfl⟩

/-- C5: every non-ERROR emit operation whose level fails the gate is a
silent no-op: the logger state (threshold, flags and buffer) is
returned unchanged and no bytes are written, in both variants,
formatted paths included. -/
theorem c5_disabled_levels_noop : ∀ (l : Logger) (ts : Timestamp) (msg : List Char),
    (v1.IsLevel l v1.WARN = false → v1.Warn l ts msg = (l, [])) ∧
    (v1.IsLevel l v1.INFO = false → v1.Info l ts msg = (l, [])) ∧
    (v1.IsLevel l v1.DEBUG = false → v1.Debug l ts msg = (l, [])) ∧
    (v1.IsLevel l v1.TRACE = false → v1.Trace l ts msg = (l, [])) ∧
    (v2.IsLevel l v2.LevelWarn = false →
      v2.Warn l ts msg = (l, []) ∧ v2.Warnf l ts msg = (l, [])) ∧
    (v2.IsLevel l v2.LevelInfo = false →
      v2.Info l ts msg = (l, []) ∧ v2.Infof l ts msg = (l, [])) ∧
    (v2.IsLevel l v2.LevelDebug = false →
      v2.Debug l ts msg = (l, []) ∧ v2.Debugf l ts msg = (l, [])) ∧
    (v2.IsLevel l v2.LevelTrace = false →
      v2.Trace l ts msg = (l, []) ∧ v2.Tracef l ts msg = (l, [])) := by
  intro l ts msg
  refine ⟨?_, ?_, ?_, ?_, ?_, ?_, ?_, ?_⟩ <;>
    intro h <;>
    simp only [v1.IsLevel, v2.IsLevel, decide_eq_false_iff_not, not_le] at h
  · unfold v1.Warn
    rw [if_pos h]
  · unfold v1.Info
    rw [if_pos h]
  · unfold v1.Debug
    rw [if_pos h]
  · unfold v1.Trace
    rw [if_pos h]
  · constructor
    · unfold v2.Warn
      rw [if_pos h]
    · unfold v2.Warnf
      rw [if_pos h]
  · constructor
    · unfold v2.Info
      rw [if_pos h]
    · unfold v2.Infof
      rw [if_pos h]
  · constructor
    · unfold v2.Debug
      rw [if_pos h]
    · unfold v2.Debugf
      rw [if_pos h]
  · constructor
    · unfold v2.Trace
      rw [if_pos h]
    · unfold v2.Tracef
      rw [if_pos h]

/-- Witness for C5: with threshold 5 the v1 WARN gate fails, and with
threshold 0 the v2 TRACE gate fails. -/
theorem c5_disabled_levels_noop_witness :
    (v1.IsLevel (New 5) v1.WARN = false ∧ v1.Warn (New 5) ts0 msg0 = (New 5, [])) ∧
    (v2.IsLevel (New 0) v2.LevelTrace = false ∧ v2.Tracef (New 0) ts0 msg0 = (New 0, [])) :=
  ⟨⟨by decide, (c5_disabled_levels_noop (New 5) ts0 msg0).1 (by decide)⟩,
   ⟨by decide, ((c5_disabled_levels_noop (New 0) ts0 msg0).2.2.2.2.2.2.2 (by decide)).2⟩⟩

/-- C3 counterexample: in the log.go variant SetLevel stores the
out-of-range value 7 unchanged, so the threshold leaves the valid range
[TRACE, ERROR] = [0, 4], refuting the claimed invariant for that
variant. -/
theorem c3_counterexample :
    (v1.SetLevel (New 1) 7).level = 7 ∧
    ¬ (v1.TRACE ≤ (v1.SetLevel (New 1) 7).level ∧
        (v1.SetLevel (New 1) 7).level ≤ v1.ERROR) := by
  decide

/-- C3 amended: in the part_000 variant SetLevel clamps out-of-range
values to the nearest boundary, stores in-range values unchanged, and
so keeps the threshold valid, while every other operation leaves the
threshold untouched; the log.go variant stores the value unvalidated. -/
theorem c3_threshold_clamped : ∀ (l : Logger) (v : Int) (ts : Timestamp) (msg : List Char),
    (v2.LevelError ≤ (v2.SetLevel l v).level ∧ (v2.SetLevel l v).level ≤ v2.LevelTrace) ∧
    (v2.LevelError ≤ v → v ≤ v2.LevelTrace → (v2.SetLevel l v).level = v) ∧
    (v < v2.LevelError → (v2.SetLevel l v).level = v2.LevelError) ∧
    (v2.LevelTrace < v → (v2.SetLevel l v).level = v2.LevelTrace) ∧
    ((v2.Warn l ts msg).1.level = l.level ∧ (v2.Info l ts msg).1.level = l.level ∧
      (v2.Debug l ts msg).1.level = l.level ∧ (v2.Trace l ts msg).1.level = l.level) ∧
    ((v2.Warnf l ts msg).1.level = l.level ∧ (v2.Infof l ts msg).1.level = l.level ∧
      (v2.Debugf l ts msg).1.level = l.level ∧ (v2.Tracef l ts msg).1.level = l.level) ∧
    ((v2.Error l ts msg).state.level = l.level ∧ (v2.Errorf l ts msg).state.level = l.level) ∧
    (v1.SetLevel l v).level = v := by
  intro l v ts msg
  refine ⟨?_, ?_, ?_, ?_, ⟨?_, ?_, ?_, ?_⟩, ⟨?_, ?_, ?_, ?_⟩, ⟨?_, ?_⟩, rfl⟩
  · simp only [v2.SetLevel, v2.LevelError, v2.LevelTrace]
    split_ifs <;> simp <;> omega
  · intro h1 h2
    simp only [v2.LevelError] at h1
    simp only [v2.LevelTrace] at h2
    simp only [v2.SetLevel, v2.LevelError, v2.LevelTrace]
    rw [if_neg (by omega), if_neg (by omega)]
  · intro h1
    simp only [v2.LevelError] at h1
    simp only [v2.SetLevel, v2.LevelError, v2.LevelTrace]
    rw [if_pos h1]
  · intro h1
    simp only [v2.LevelTrace] at h1
    simp only [v2.SetLevel, v2.LevelError, v2.LevelTrace]
    rw [if_neg (by omega), if_pos h1]
  · unfold v2.Warn
    split_ifs <;> simp [v2.write]
  · unfold v2.Info
    split_ifs <;> simp [v2.write]
  · unfold v2.Debug
    split_ifs <;> simp [v2.write]
  · unfold v2.Trace
    split_ifs <;> simp [v2.write]
  · unfold v2.Warnf
    split_ifs <;> simp [v2.writef]
  · unfold v2.Infof
    split_ifs <;> simp [v2.writef]
  · unfold v2.Debugf
    split_ifs <;> simp [v2.writef]
  · unfold v2.Tracef
    split_ifs <;> simp [v2.writef]
  · simp [v2.Error, v2.write]
  · simp [v2.Errorf, v2.writef]

/-- Witness for C3 at an in-range value, a value below the range and a
value above it. -/
theorem c3_threshold_clamped_witness :
    (v2.SetLevel (New 0) 2).level = 2 ∧
    (v2.SetLevel (New 0) (-5)).level = v2.LevelError ∧
    (v2.SetLevel (New 0) 9).level = v2.LevelTrace :=
  ⟨(c3_threshold_clamped (New 0) 2 ts0 msg0).2.1 (by decide) (by decide),
   (c3_threshold_clamped (New 0) (-5) ts0 msg0).2.2.1 (by decide),
   (c3_threshold_clamped (New 0) 9 ts0 msg0).2.2.2.1 (by decide)⟩

/-- C4 counterexample: in the log.go variant, with the reachable
threshold 5 (New and SetLevel both store values unvalidated), the
ERROR convenience operation neither writes nor exits and returns to
the caller. -/
theorem c4_counterexample :
    (v1.Error (New 5) ts0 msg0).exited = false ∧ (v1.Error (New 5) ts0 msg0).out = [] := by
  decide

/-- C4 amended: in the part_000 variant Error and Errorf always attempt
the write and then terminate the process, never returning to the
caller; in the log.go variant Error writes and terminates exactly when
ERROR passes the gate, which holds for every threshold at most ERROR,
and with a threshold above ERROR it returns silently without writing or
exiting. -/
theorem c4_error_terminates : ∀ (l : Logger) (ts : Timestamp) (msg : List Char),
    ((v2.Error l ts msg).exited = true ∧
      (v2.Error l ts msg).out = (v2.write l v2.LevelError ts msg).2 ∧
      (v2.Errorf l ts msg).exited = true) ∧
    (l.level ≤ v1.ERROR →
      (v1.Error l ts msg).exited = true ∧
      (v1.Error l ts msg).out = (v1.write l v1.ERROR ts msg).2) ∧
    (v1.ERROR < l.level →
      (v1.Error l ts msg).exited = false ∧ (v1.Error l ts msg).out = []) := by
  intro l ts msg
  refine ⟨⟨rfl, rfl, rfl⟩, ?_, ?_⟩
  · intro h
    unfold v1.Error
    rw [if_neg (not_lt.mpr h)]
    exact ⟨rfl, rfl⟩
  · intro h
    unfold v1.Error
    rw [if_pos h]
    exact ⟨rfl, rfl⟩

/-- Witness for C4: at threshold 4 (ERROR) the log.go Error exits; at
the reachable threshold 5 it does not. -/
theorem c4_error_terminates_witness :
    (New 4).level ≤ v1.ERROR ∧ (v1.Error (New 4) ts0 msg0).exited = true ∧
    v1.ERROR < (New 5).level ∧ (v1.Error (New 5) ts0 msg0).exited = false :=
  ⟨by decide, ((c4_error_terminates (New 4) ts0 msg0).2.1 (by decide)).1,
   by decide, ((c4_error_terminates (New 5) ts0 msg0).2.2 (by decide)).1⟩

/-- With color on, the log.go level tag is exactly the spec's per-level
colored tag run for each of the five levels. -/
theorem v1_getHeaderLevel_color (l : Logger) (L : Lvl) (hc : l.Color = true) :
    v1.getHeaderLevel l (Lvl.toV1 L) = tagRun L := by
  cases L <;>
    simp [v1.getHeaderLevel, tagRun, Lvl.toV1, v1.TRACE, v1.DEBUG, v1.INFO, v1.WARN,
      v1.ERROR, hc]

/-- C2 counterexample: with color on and the level tag as the only
enabled header part, the byte removed by the terminator step is not a
space but the final byte of the header color escape, which ends up
truncated; and with color on and all sub-switches off, the header is
not empty. -/
theorem c2_counterexample :
    v1.headerPre cfgTagOnly v1.INFO ts0 ≠ [] ∧
    (v1.headerPre cfgTagOnly v1.INFO ts0).getLast? ≠ some ' ' ∧
    v1.writeHeader cfgTagOnly v1.INFO ts0 =
      tagRun Lvl.info ++ [escCh, '[', '9', '0', ':', ' '] ++ acolor.Clear ∧
    v1.writeHeader cfgColorOnly v1.INFO ts0 ≠ [] := by
  decide

/-- C2 amended: in both variants, when the pre-terminator header bytes
are nonempty the terminator removes the last byte, whatever it is, and
appends colon-space plus the reset sequence when color is on; the
header is empty exactly when color is off and all header sub-switches
are off (with color on the header color escape is always written); and
the removed byte is guaranteed to be a space only when the date or the
time is shown. -/
theorem c2_header_terminator : ∀ (l : Logger) (level : Int) (ts : Timestamp),
    (v1.headerPre l level ts = [] → v1.writeHeader l level ts = []) ∧
    (v1.headerPre l level ts ≠ [] →
      v1.writeHeader l level ts =
        (v1.headerPre l level ts).dropLast ++ [':', ' '] ++
          (if l.Color then acolor.Clear else [])) ∧
    (v1.headerPre l level ts = [] ↔
      l.Color = false ∧ l.HeadLevel = false ∧ l.HeadDate = false ∧ l.HeadTime = false) ∧
    (l.HeadDate = true ∨ l.HeadTime = true →
      (v1.headerPre l level ts).getLast? = some ' ') ∧
    (v2.headerPre l level ts = [] → v2.writeHeader l level ts = []) ∧
    (v2.headerPre l level ts ≠ [] →
      v2.writeHeader l level ts =
        (v2.headerPre l level ts).dropLast ++ [':', ' '] ++
          (if l.Color then acolor.Clear else [])) ∧
    (v2.headerPre l level ts = [] ↔
      l.Color = false ∧ l.HeadLevel = false ∧ l.HeadDate = false ∧ l.HeadTime = false) ∧
    (l.HeadDate = true ∨ l.HeadTime = true →
      (v2.headerPre l level ts).getLast? = some ' ') := by
  intro l level ts
  refine ⟨?_, ?_, ?_, ?_, ?_, ?_, ?_, ?_⟩
  · intro h
    simp [v1.writeHeader, h]
  · intro h
    simp only [v1.writeHeader]
    rw [if_neg (by simpa [List.length_eq_zero] using h), List.append_assoc]
  · exact pre_shape_eq_nil_iff l _ _ ts (v1_getHeaderLevel_ne_nil l level)
      (by split_ifs <;> exact Apply_ne_nil _)
  · intro h
    exact pre_shape_getLast l _ _ ts h
  · intro h
    simp [v2.writeHeader, h]
  · intro h
    simp only [v2.writeHeader]
    rw [if_neg (by simpa [List.length_eq_zero] using h), List.append_assoc]
  · exact pre_shape_eq_nil_iff l _ _ ts (v2_getHeaderLevel_ne_nil l level)
      (by split_ifs <;> exact Apply_ne_nil _)
  · intro h
    exact pre_shape_getLast l _ _ ts h

/-- Witness for C2 at a configuration showing date and time with color
on. -/
theorem c2_header_terminator_witness :
    v1.headerPre (New 0) v1.INFO ts0 ≠ [] ∧
    (v1.headerPre (New 0) v1.INFO ts0).getLast? = some ' ' ∧
    v1.writeHeader (New 0) v1.INFO ts0 =
      (v1.headerPre (New 0) v1.INFO ts0).dropLast ++ [':', ' '] ++ acolor.Clear :=
  ⟨by decide,
   (c2_header_terminator (New 0) v1.INFO ts0).2.2.2.1 (Or.inl (by decide)),
   by
    have h := (c2_header_terminator (New 0) v1.INFO ts0).2.1 (by decide)
    simpa using h⟩

theorem itoa_pad_two (n : Nat) : itoa n 2 = pad 2 n := by
  rw [itoa_eq_pad, pad, show ((2 : Int)).toNat = 2 from rfl]

theorem itoa_pad_four (n : Nat) : itoa n 4 = pad 4 n := by
  rw [itoa_eq_pad, pad, show ((4 : Int)).toNat = 4 from rfl]

theorem itoa_pad_six (n : Nat) : itoa n 6 = pad 6 n := by
  rw [itoa_eq_pad, pad, show ((6 : Int)).toNat = 6 from rfl]

/-- C6: with date and time shown, color and the tag off, the header is
the zero-padded date DD.MM.YYYY, a space, the zero-padded time
HH:MM:SS (with microseconds appended exactly when the microsecond
switch is on), and the colon terminator; at the fixed instant
2024-03-05T07:08:09Z it is exactly the claimed 21-character string. -/
theorem c6_header_date_time :
    (∀ (ts : Timestamp) (level : Int),
      v1.writeHeader cfgDT level ts =
        pad 2 ts.day ++ ['.'] ++ pad 2 ts.month ++ ['.'] ++ pad 4 ts.year ++ [' '] ++
          pad 2 ts.hour ++ [':'] ++ pad 2 ts.minute ++ [':'] ++ pad 2 ts.sec ++ [':', ' ']) ∧
    (∀ (ts : Timestamp) (level : Int),
      v1.writeHeader { cfgDT with HeadMC := true } level ts =
        pad 2 ts.day ++ ['.'] ++ pad 2 ts.month ++ ['.'] ++ pad 4 ts.year ++ [' '] ++
          pad 2 ts.hour ++ [':'] ++ pad 2 ts.minute ++ [':'] ++ pad 2 ts.sec ++ ['.'] ++
          pad 6 (ts.nsec / 1000) ++ [':', ' ']) ∧
    v1.writeHeader cfgDT v1.INFO ts0 = "05.03.2024 07:08:09: ".data := by
  refine ⟨fun ts level => ?_, fun ts level => ?_, by decide⟩
  · have hpre : v1.headerPre cfgDT level ts =
        (itoa ts.day 2 ++ ['.'] ++ itoa ts.month 2 ++ ['.'] ++ itoa ts.year 4 ++ [' '] ++
          itoa ts.hour 2 ++ [':'] ++ itoa ts.minute 2 ++ [':'] ++ itoa ts.sec 2) ++ [' '] := by
      simp [v1.headerPre, headerDateTime, cfgDT, v1.getHeaderLevel, List.append_assoc]
    simp only [v1.writeHeader, hpre]
    rw [if_neg (by simp), List.dropLast_concat]
    simp [cfgDT, itoa_pad_two, itoa_pad_four, List.append_assoc]
  · have hpre : v1.headerPre { cfgDT with HeadMC := true } level ts =
        (itoa ts.day 2 ++ ['.'] ++ itoa ts.month 2 ++ ['.'] ++ itoa ts.year 4 ++ [' '] ++
          itoa ts.hour 2 ++ [':'] ++ itoa ts.minute 2 ++ [':'] ++ itoa ts.sec 2 ++ ['.'] ++
          itoa (ts.nsec / 1000) 6) ++ [' '] := by
      simp [v1.headerPre, headerDateTime, cfgDT, v1.getHeaderLevel, List.append_assoc]
    simp only [v1.writeHeader, hpre]
    rw [if_neg (by simp), List.dropLast_concat]
    simp [cfgDT, itoa_pad_two, itoa_pad_four, itoa_pad_six, List.append_assoc]

/-- C8: with color off the whole emitted line contains no escape byte
whenever the rendered message contains none; with color on, the line
opens with the correct per-level bold color escape, tag and reset when
the tag is shown, and for ERROR the body is bracketed between the red
escape and the reset followed by the newline. -/
theorem c8_color_escapes : ∀ (l : Logger) (L : Lvl) (ts : Timestamp) (msg : List Char),
    (l.Color = false → escCh ∉ msg → escCh ∉ (v1.write l (Lvl.toV1 L) ts msg).2) ∧
    (l.Color = true → l.Head = true → l.HeadLevel = true →
      ∃ rest, (v1.write l (Lvl.toV1 L) ts msg).2 = tagRun L ++ rest) ∧
    (l.Color = true → L = Lvl.error →
      ∃ front, (v1.write l (Lvl.toV1 L) ts msg).2 =
        front ++ (acolor.Apply [acolor.Red] ++ msg ++ acolor.Clear ++ ['\n'])) := by
  intro l L ts msg
  have hw2 : (v1.write l (Lvl.toV1 L) ts msg).2 =
      if l.Color ∧ Lvl.toV1 L = v1.ERROR then
        (if l.Head then v1.writeHeader l (Lvl.toV1 L) ts else []) ++
          (acolor.Apply [acolor.Red] ++ msg ++ acolor.Clear ++ ['\n'])
      else
        (if l.Head then v1.writeHeader l (Lvl.toV1 L) ts else []) ++ (msg ++ ['\n']) := rfl
  refine ⟨?_, ?_, ?_⟩
  · intro hc hmsg
    rw [hw2, if_neg (by simp [hc])]
    intro h
    rcases List.mem_append.1 h with h | h
    · split at h
      · exact esc_not_mem_writeHeader_v1 l _ ts hc h
      · simp at h
    · rcases List.mem_append.1 h with h | h
      · exact hmsg h
      · exact absurd h (by decide)
  · intro hc hh hl
    have hpre : v1.headerPre l (Lvl.toV1 L) ts =
        tagRun L ++
          ((if Lvl.toV1 L = v1.ERROR then acolor.Apply [acolor.Red]
            else acolor.Apply [acolor.BlackHi]) ++
            (if l.HeadDate || l.HeadTime then headerDateTime l ts else [])) := by
      unfold v1.headerPre
      rw [if_pos hl, if_pos hc, v1_getHeaderLevel_color l L hc, List.append_assoc]
    have hr : ((if Lvl.toV1 L = v1.ERROR then acolor.Apply [acolor.Red]
        else acolor.Apply [acolor.BlackHi]) ++
        (if l.HeadDate || l.HeadTime then headerDateTime l ts else [])) ≠ [] := by
      intro he
      rcases List.append_eq_nil.1 he with ⟨he1, _⟩
      revert he1
      split_ifs <;> exact fun he1 => Apply_ne_nil _ he1
    obtain ⟨X, hX⟩ : ∃ X, v1.writeHeader l (Lvl.toV1 L) ts = tagRun L ++ X := by
      refine ⟨((if Lvl.toV1 L = v1.ERROR then acolor.Apply [acolor.Red]
          else acolor.Apply [acolor.BlackHi]) ++
          (if l.HeadDate || l.HeadTime then headerDateTime l ts else [])).dropLast ++
          ([':', ' '] ++ (if l.Color then acolor.Clear else [])), ?_⟩
      simp only [v1.writeHeader, hpre]
      rw [if_neg ?hne, List.dropLast_append_of_ne_nil _ hr, List.append_assoc]
      case hne =>
        simp only [List.length_eq_zero]
        intro he
        rcases List.append_eq_nil.1 he with ⟨ht, _⟩
        exact tagRun_ne_nil L ht
    by_cases hcond : l.Color = true ∧ Lvl.toV1 L = v1.ERROR
    · refine ⟨X ++ (acolor.Apply [acolor.Red] ++ msg ++ acolor.Clear ++ ['\n']), ?_⟩
      rw [hw2, if_pos hcond, if_pos hh, hX, List.append_assoc]
    · refine ⟨X ++ (msg ++ ['\n']), ?_⟩
      rw [hw2, if_neg hcond, if_pos hh, hX, List.append_assoc]
  · intro hc hL
    subst hL
    refine ⟨if l.Head then v1.writeHeader l (Lvl.toV1 Lvl.error) ts else [], ?_⟩
    rw [hw2, if_pos ⟨hc, rfl⟩]

/-- Witness for C8: color off yields an escape-free line; with the
default configuration the line opens with the WARN tag run, and the
ERROR line ends in the red-bracketed body. -/
theorem c8_color_escapes_witness :
    escCh ∉ msg0 ∧
    escCh ∉ (v1.write { New 0 with Color := false } (Lvl.toV1 Lvl.info) ts0 msg0).2 ∧
    (∃ rest, (v1.write (New 0) (Lvl.toV1 Lvl.warn) ts0 msg0).2 = tagRun Lvl.warn ++ rest) ∧
    (∃ front, (v1.write (New 0) (Lvl.toV1 Lvl.error) ts0 msg0).2 =
      front ++ (acolor.Apply [acolor.Red] ++ msg0 ++ acolor.Clear ++ ['\n'])) :=
  ⟨by decide,
   (c8_color_escapes { New 0 with Color := false } Lvl.info ts0 msg0).1 rfl (by decide),
   (c8_color_escapes (New 0) Lvl.warn ts0 msg0).2.1 rfl rfl rfl,
   (c8_color_escapes (New 0) Lvl.error ts0 msg0).2.2 rfl rfl⟩
